import Mathlib

/-!
Shallow embedding of the core of the Zazu image editor (src/App.tsx and
the AssetOverlay component): the linear undo/redo history over image
versions and the layered asset-composition engine, together with
theorems checking the specification claims against these definitions.
JavaScript numbers are modelled as rationals, File objects and image
URLs as strings.
-/

/-- An asset overlay instance, as held in the assetOverlays state of the
App component (App.tsx lines 43-55). -/
structure Overlay where
  id : String
  src : String
  name : String
  category : String
  x : Rat
  y : Rat
  width : Rat
  height : Rat
  rotation : Rat
  opacity : Rat
  zIndex : Int
  deriving Repr, DecidableEq

/-- The React state of the App component that the claims concern
(App.tsx lines 34-56). -/
structure AppState where
  history : List String
  historyIndex : Int
  prompt : String
  isLoading : Bool
  error : Option String
  editHotspot : Option (Rat × Rat)
  displayHotspot : Option (Rat × Rat)
  activeTab : String
  hasStarted : Bool
  assetOverlays : List Overlay
  isEditingAssets : Bool
  deriving Repr, DecidableEq

/-- The initial useState values of the App component. -/
def initialState : AppState where
  history := []
  historyIndex := -1
  prompt := ""
  isLoading := false
  error := none
  editHotspot := none
  displayHotspot := none
  activeTab := "retouch"
  hasStarted := false
  assetOverlays := []
  isEditingAssets := false

/-- JavaScript Array.prototype.slice with start 0: a negative end counts
from the end of the array, and the result never reaches past the end. -/
def jsSlice (l : List α) (e : Int) : List α :=
  if e < 0 then l.take (l.length + e).toNat else l.take e.toNat

/-- history[historyIndex] ?? null (App.tsx line 62): none when the index
is negative or past the end. -/
def currentImage (s : AppState) : Option String :=
  if 0 ≤ s.historyIndex then s.history[s.historyIndex.toNat]? else none

/-- historyIndex > 0 (App.tsx line 135). -/
def canUndo (s : AppState) : Bool :=
  decide (0 < s.historyIndex)

/-- historyIndex < history.length - 1 (App.tsx line 136). -/
def canRedo (s : AppState) : Bool :=
  decide (s.historyIndex < (s.history.length : Int) - 1)

/-- addImageToHistory (App.tsx lines 138-144): slice the history to the
entries up to and including the cursor, push the new file, move the
cursor to the new tail. -/
def addImageToHistory (s : AppState) (newImageFile : String) : AppState :=
  let newHistory := jsSlice s.history (s.historyIndex + 1) ++ [newImageFile]
  { s with history := newHistory
           historyIndex := (newHistory.length : Int) - 1 }

/-- handleImageUpload (App.tsx lines 146-153): replace the whole history
with the uploaded file. -/
def handleImageUpload (s : AppState) (file : String) : AppState :=
  { s with error := none
           history := [file]
           historyIndex := 0
           editHotspot := none
           displayHotspot := none
           activeTab := "retouch" }

/-- The successful path of loadZazuImage (App.tsx lines 90-124). -/
def loadZazuImage (s : AppState) (zazuFile : String) : AppState :=
  { s with isLoading := false
           error := none
           history := [zazuFile]
           historyIndex := 0
           editHotspot := none
           displayHotspot := none
           activeTab := "retouch"
           hasStarted := true }

/-- handleUndo (App.tsx lines 233-239). -/
def handleUndo (s : AppState) : AppState :=
  if canUndo s then
    { s with historyIndex := s.historyIndex - 1
             editHotspot := none
             displayHotspot := none }
  else s

/-- handleRedo (App.tsx lines 241-247). -/
def handleRedo (s : AppState) : AppState :=
  if canRedo s then
    { s with historyIndex := s.historyIndex + 1
             editHotspot := none
             displayHotspot := none }
  else s

/-- handleReset (App.tsx lines 249-256): rewind the cursor to the first
version without touching the sequence. -/
def handleReset (s : AppState) : AppState :=
  if 0 < s.history.length then
    { s with historyIndex := 0
             error := none
             editHotspot := none
             displayHotspot := none }
  else s

/-- handleUploadNew (App.tsx lines 258-265). -/
def handleUploadNew (s : AppState) : AppState :=
  { s with history := []
           historyIndex := -1
           error := none
           prompt := ""
           editHotspot := none
           displayHotspot := none }

/-- The Clear All button (App.tsx line 840) empties the overlay set. -/
def clearAllOverlays (s : AppState) : AppState :=
  { s with assetOverlays := [] }

/-- JavaScript String.prototype.trim: drop whitespace from both ends
(written with structural recursion so that it evaluates). -/
def jsTrim (s : String) : String :=
  String.mk (((s.data.dropWhile Char.isWhitespace).reverse.dropWhile
    Char.isWhitespace).reverse)

/-- dataURLtoFile (App.tsx lines 18-29): fails on a string without a
comma, otherwise produces a File, which we abstract by the data URL
itself. -/
def dataURLtoFile (dataurl : String) : Except String String :=
  if (dataurl.splitOn ",").length < 2 then Except.error "Invalid data URL"
  else Except.ok dataurl

/-- handleGenerate (App.tsx lines 155-187).  The awaited remote call is
a parameter: ok with the returned data URL, or error with a message. -/
def handleGenerate (s : AppState) (remote : Except String String) : AppState :=
  if currentImage s = none then
    { s with error := some "No image loaded to edit." }
  else if jsTrim s.prompt = "" then
    { s with error := some "Please enter a description for your edit." }
  else if s.editHotspot = none then
    { s with error := some "Please click on the image to select an area to edit." }
  else
    match remote.bind dataURLtoFile with
    | Except.ok f =>
      let s1 := addImageToHistory { s with error := none } f
      { s1 with editHotspot := none
                displayHotspot := none
                isLoading := false }
    | Except.error msg =>
      { s with error := some ("Failed to generate the image. " ++ msg)
               isLoading := false }

/-- handleApplyFilter (App.tsx lines 189-209). -/
def handleApplyFilter (s : AppState) (filterPrompt : String)
    (remote : Except String String) : AppState :=
  if currentImage s = none then
    { s with error := some "No image loaded to apply a filter to." }
  else
    match remote.bind dataURLtoFile with
    | Except.ok f =>
      { addImageToHistory { s with error := none } f with isLoading := false }
    | Except.error msg =>
      { s with error := some ("Failed to apply the filter. " ++ msg)
               isLoading := false }

/-- handleApplyAdjustment (App.tsx lines 211-231). -/
def handleApplyAdjustment (s : AppState) (adjustmentPrompt : String)
    (remote : Except String String) : AppState :=
  if currentImage s = none then
    { s with error := some "No image loaded to apply an adjustment to." }
  else
    match remote.bind dataURLtoFile with
    | Except.ok f =>
      { addImageToHistory { s with error := none } f with isLoading := false }
    | Except.error msg =>
      { s with error := some ("Failed to apply the adjustment. " ++ msg)
               isLoading := false }

/-- An entry of the static asset catalog as passed to handleAssetSelect. -/
structure AssetDescriptor where
  name : String
  path : String
  category : String
  deriving Repr, DecidableEq

/-- The canvas is a fixed 400 by 400 square (App.tsx lines 276-277, 539). -/
def canvasWidth : Rat := 400

/-- Height of the fixed canvas. -/
def canvasHeight : Rat := 400

/-- The overlay that handleAssetSelect constructs (App.tsx lines
406-427), with the generated id taken as a parameter. -/
def newOverlay (asset : AssetDescriptor) (freshId : String) : Overlay where
  id := freshId
  src := asset.path
  name := asset.name
  category := asset.category
  x := if asset.category == "backgrounds" then 0 else 50
  y := if asset.category == "backgrounds" then 0 else 50
  width := if asset.category == "backgrounds" then 400 else 100
  height := if asset.category == "backgrounds" then 400 else 100
  rotation := 0
  opacity := 1
  zIndex :=
    if asset.category == "eyes" || asset.category == "hats"
        || asset.category == "accessories" then 1000
    else if asset.category == "characters" then 500
    else 1

/-- handleAssetSelect (App.tsx lines 400-431). -/
def handleAssetSelect (s : AppState) (asset : AssetDescriptor)
    (freshId : String) : AppState :=
  if currentImage s = none then
    { s with error := some "No image loaded to add assets to." }
  else
    { s with assetOverlays := s.assetOverlays ++ [newOverlay asset freshId]
             isEditingAssets := true }

/-- One drawImage call of the flattening pass: the arguments App.tsx
passes to drawImage (lines 284-307). -/
structure DrawCmd where
  src : String
  x : Rat
  y : Rat
  width : Rat
  height : Rat
  rotation : Rat
  opacity : Rat
  deriving Repr, DecidableEq

/-- The point drawImage rotates about (App.tsx lines 292-297): the
center of the bounding box of the drawn image. -/
def rotationCenter (c : DrawCmd) : Rat × Rat :=
  (c.x + c.width / 2, c.y + c.height / 2)

/-- The drawImage call an overlay produces in drawComposition. -/
def overlayDraw (o : Overlay) : DrawCmd where
  src := o.src
  x := o.x
  y := o.y
  width := o.width
  height := o.height
  rotation := o.rotation
  opacity := o.opacity

/-- The fixed inset size of the base image (App.tsx line 319). -/
def zazuSize : Rat := 380

/-- The drawImage call for the base image (App.tsx lines 318-323):
centered horizontally, aligned to the bottom edge of the canvas. -/
def baseDraw (url : String) : DrawCmd where
  src := url
  x := (canvasWidth - zazuSize) / 2
  y := canvasHeight - zazuSize
  width := zazuSize
  height := zazuSize
  rotation := 0
  opacity := 1

/-- drawComposition (App.tsx lines 310-329) as the ordered list of
drawImage calls it issues: background overlays, then the base image,
then all other overlays in their current order. -/
def drawComposition (overlays : List Overlay)
    (currentImageUrl : Option String) : List DrawCmd :=
  ((overlays.filter fun o => o.category == "backgrounds").map overlayDraw)
    ++ (match currentImageUrl with
        | some url => [baseDraw url]
        | none => [])
    ++ ((overlays.filter fun o => o.category != "backgrounds").map overlayDraw)

/-- The local state of the AssetOverlay component (lines 116-119 of the
component source). -/
structure OverlayCompState where
  overlays : List Overlay
  dragging : Option String
  resizing : Option String
  dragStart : Rat × Rat
  deriving Repr, DecidableEq

/-- handleUpdateOverlay (App.tsx lines 433-437): merge updates into the
overlay with the given id; the merged fields are given as a function. -/
def handleUpdateOverlay (overlays : List Overlay) (i : String)
    (f : Overlay → Overlay) : List Overlay :=
  overlays.map fun o => if o.id == i then f o else o

/-- The drag update of handleMouseMove (AssetOverlay component lines
155-159): position moved by the delta and clamped to the container. -/
def dragStep (rectW rectH : Rat) (o : Overlay) (deltaX deltaY : Rat) : Overlay :=
  { o with x := max 0 (min (rectW - o.width) (o.x + deltaX))
           y := max 0 (min (rectH - o.height) (o.y + deltaY)) }

/-- The resize update of handleMouseMove (AssetOverlay component lines
160-167): size grown by the delta with a floor of 20. -/
def resizeStep (o : Overlay) (deltaX deltaY : Rat) : Overlay :=
  { o with width := max 20 (o.width + deltaX)
           height := max 20 (o.height + deltaY) }

/-- handleMouseMove (AssetOverlay component lines 140-170).  The pointer
position is given relative to the container rectangle of size rectW by
rectH. -/
def handleMouseMove (rectW rectH currentX currentY : Rat)
    (st : OverlayCompState) : OverlayCompState :=
  if st.dragging = none ∧ st.resizing = none then st
  else
    let deltaX := currentX - st.dragStart.1
    let deltaY := currentY - st.dragStart.2
    let target :=
      match st.dragging with
      | some d => d
      | none => st.resizing.getD ""
    match st.overlays.find? fun o => o.id == target with
    | none => st
    | some overlay =>
      let updated : Overlay → Overlay :=
        match st.dragging with
        | some _ => fun o =>
            { o with x := (dragStep rectW rectH overlay deltaX deltaY).x
                     y := (dragStep rectW rectH overlay deltaX deltaY).y }
        | none => fun o =>
            { o with width := (resizeStep overlay deltaX deltaY).width
                     height := (resizeStep overlay deltaX deltaY).height }
      { st with overlays := handleUpdateOverlay st.overlays overlay.id updated
                dragStart := (currentX, currentY) }

/-! ## Helper lemmas -/

/-- jsSlice with a nonnegative end index is List.take. -/
theorem jsSlice_of_nonneg (l : List α) (e : Int) (h : 0 ≤ e) :
    jsSlice l e = l.take e.toNat := by
  unfold jsSlice
  rw [if_neg (by omega)]

/-- The core computation of addImageToHistory with the cursor in range. -/
theorem addImageToHistory_core (s : AppState) (v : String)
    (h0 : 0 ≤ s.historyIndex) (h1 : s.historyIndex < (s.history.length : Int)) :
    (addImageToHistory s v).history
        = s.history.take (s.historyIndex.toNat + 1) ++ [v]
      ∧ (addImageToHistory s v).historyIndex = s.historyIndex + 1
      ∧ currentImage (addImageToHistory s v) = some v := by
  have hjs : jsSlice s.history (s.historyIndex + 1)
      = s.history.take (s.historyIndex.toNat + 1) := by
    rw [jsSlice_of_nonneg s.history _ (by omega)]
    congr 1
    omega
  have hk : s.historyIndex.toNat + 1 ≤ s.history.length := by omega
  have hlen : (s.history.take (s.historyIndex.toNat + 1)).length
      = s.historyIndex.toNat + 1 := List.length_take_of_le hk
  have hhist : (addImageToHistory s v).history
      = s.history.take (s.historyIndex.toNat + 1) ++ [v] := by
    show jsSlice s.history (s.historyIndex + 1) ++ [v] = _
    rw [hjs]
  have hidx : (addImageToHistory s v).historyIndex = s.historyIndex + 1 := by
    show ((jsSlice s.history (s.historyIndex + 1) ++ [v]).length : Int) - 1 = _
    rw [hjs]
    simp only [List.length_append, List.length_cons, List.length_nil, hlen]
    omega
  refine ⟨hhist, hidx, ?_⟩
  unfold currentImage
  rw [hidx, hhist, if_pos (by omega : (0:Int) ≤ s.historyIndex + 1)]
  have htn : (s.historyIndex + 1).toNat = s.historyIndex.toNat + 1 := by omega
  rw [htn, List.getElem?_append_right (by omega)]
  simp [hlen]

/-- C1: appending with the cursor at index i keeps the prefix up to and
including i, discards everything after it, appends the new version, and
makes it current at cursor i + 1. -/
theorem addImageToHistory_truncates (s : AppState) (v : String)
    (h0 : 0 ≤ s.historyIndex) (h1 : s.historyIndex < (s.history.length : Int)) :
    (addImageToHistory s v).history
        = s.history.take (s.historyIndex.toNat + 1) ++ [v]
      ∧ (addImageToHistory s v).historyIndex = s.historyIndex + 1
      ∧ currentImage (addImageToHistory s v) = some v :=
  addImageToHistory_core s v h0 h1

/-- The concrete history of the C1 example. -/
def sABC : AppState :=
  { initialState with history := ["A", "B", "C"], historyIndex := 1 }

/-- C1 witness: on [A, B, C] with the cursor at index 1, appending D
yields [A, B, D] with the cursor at 2 and D current. -/
theorem addImageToHistory_truncates_witness :
    (addImageToHistory sABC "D").history = ["A", "B", "D"]
      ∧ (addImageToHistory sABC "D").historyIndex = 2
      ∧ currentImage (addImageToHistory sABC "D") = some "D" := by
  obtain ⟨h1, h2, h3⟩ := addImageToHistory_truncates sABC "D" (by decide) (by decide)
  refine ⟨?_, ?_, h3⟩
  · rw [h1]; rfl
  · rw [h2]; rfl

/-- C3: handleReset is the identity on an empty history; on a non-empty
history it rewinds the cursor to 0, making the first version current,
without touching the sequence, so redo past the original stays possible. -/
theorem handleReset_rewinds (s : AppState) :
    (s.history = [] → handleReset s = s)
    ∧ (s.history ≠ [] →
        (handleReset s).history = s.history
        ∧ (handleReset s).historyIndex = 0
        ∧ currentImage (handleReset s) = s.history.head?
        ∧ (1 < s.history.length → canRedo (handleReset s) = true)) := by
  constructor
  · intro h
    unfold handleReset
    rw [if_neg (by simp [h])]
  · intro h
    have hlen : 0 < s.history.length := List.length_pos.mpr h
    unfold handleReset
    rw [if_pos hlen]
    refine ⟨rfl, rfl, ?_, ?_⟩
    · simp [currentImage, List.head?_eq_getElem?]
    · intro h2
      simp only [canRedo, decide_eq_true_eq]
      omega

/-- C8 (amended): handleUploadNew empties the history and resets the
cursor to -1, but leaves the overlay set untouched; only the clear-all
action empties the overlay set. -/
theorem handleUploadNew_clears_history (s : AppState) :
    (handleUploadNew s).history = []
      ∧ (handleUploadNew s).historyIndex = -1
      ∧ (handleUploadNew s).assetOverlays = s.assetOverlays
      ∧ (clearAllOverlays s).assetOverlays = [] :=
  ⟨rfl, rfl, rfl, rfl⟩

/-- A foreground overlay for the C8 counterexample. -/
def overlayA : Overlay where
  id := "a"
  src := "/assets/hats/beanie.png"
  name := "Beanie"
  category := "hats"
  x := 50
  y := 50
  width := 100
  height := 100
  rotation := 0
  opacity := 1
  zIndex := 1000

/-- A state with one loaded image and one overlay. -/
def s8 : AppState :=
  { initialState with history := ["A"], historyIndex := 0, assetOverlays := [overlayA] }

/-- C8 counterexample: after handleUploadNew the history is cleared but
the overlay set is not empty, contrary to the claim. -/
theorem upload_new_keeps_overlays_cex :
    (handleUploadNew s8).history = []
      ∧ (handleUploadNew s8).historyIndex = -1
      ∧ (handleUploadNew s8).assetOverlays = [overlayA]
      ∧ [overlayA] ≠ ([] : List Overlay) :=
  ⟨rfl, rfl, rfl, by simp⟩

/-- C10: selecting an asset with no current image adds no overlay and
only sets the error message. -/
theorem asset_select_requires_image (s : AppState) (asset : AssetDescriptor)
    (freshId : String) (h : currentImage s = none) :
    handleAssetSelect s asset freshId
        = { s with error := some "No image loaded to add assets to." }
      ∧ (handleAssetSelect s asset freshId).assetOverlays = s.assetOverlays := by
  unfold handleAssetSelect
  rw [if_pos h]
  exact ⟨rfl, rfl⟩

/-- A sample asset for the C10 witness. -/
def beanieAsset : AssetDescriptor where
  name := "Beanie"
  path := "/assets/hats/beanie.png"
  category := "hats"

/-- C10 witness: on the initial empty state, asset selection leaves the
overlay set empty and reports the error. -/
theorem asset_select_requires_image_witness :
    handleAssetSelect initialState beanieAsset "id0"
        = { initialState with error := some "No image loaded to add assets to." }
      ∧ (handleAssetSelect initialState beanieAsset "id0").assetOverlays
        = initialState.assetOverlays :=
  asset_select_requires_image initialState beanieAsset "id0" (by decide)

/-- C6: the category-derived defaults of a newly constructed overlay. -/
theorem newOverlay_category_defaults (a : AssetDescriptor) (freshId : String) :
    (a.category = "backgrounds" →
        (newOverlay a freshId).x = 0 ∧ (newOverlay a freshId).y = 0
        ∧ (newOverlay a freshId).width = canvasWidth
        ∧ (newOverlay a freshId).height = canvasHeight
        ∧ (newOverlay a freshId).zIndex = 1)
    ∧ ((a.category = "eyes" ∨ a.category = "hats" ∨ a.category = "accessories") →
        (newOverlay a freshId).x = 50 ∧ (newOverlay a freshId).y = 50
        ∧ (newOverlay a freshId).width = 100 ∧ (newOverlay a freshId).height = 100
        ∧ (newOverlay a freshId).zIndex = 1000)
    ∧ (newOverlay a freshId).rotation = 0
    ∧ (newOverlay a freshId).opacity = 1 := by
  obtain ⟨n, p, c⟩ := a
  refine ⟨?_, ?_, rfl, rfl⟩
  · intro h
    simp only at h
    subst h
    exact ⟨rfl, rfl, rfl, rfl, rfl⟩
  · intro h
    simp only at h
    rcases h with h | h | h <;> subst h <;> exact ⟨rfl, rfl, rfl, rfl, rfl⟩

/-! ## Rendering order -/

/-- The zIndex update of an overlay leaves the background filter and the
issued draw commands unchanged. -/
theorem filter_map_zIndex_bg (g : Overlay → Int) (l : List Overlay) :
    ((l.map fun o => { o with zIndex := g o }).filter
        fun o => o.category == "backgrounds")
      = (l.filter fun o => o.category == "backgrounds").map
          fun o => { o with zIndex := g o } := by
  induction l with
  | nil => rfl
  | cons a t ih =>
    by_cases h : a.category == "backgrounds" <;>
      simp_all [List.filter_cons]

/-- The zIndex update of an overlay leaves the foreground filter
unchanged as well. -/
theorem filter_map_zIndex_fg (g : Overlay → Int) (l : List Overlay) :
    ((l.map fun o => { o with zIndex := g o }).filter
        fun o => o.category != "backgrounds")
      = (l.filter fun o => o.category != "backgrounds").map
          fun o => { o with zIndex := g o } := by
  induction l with
  | nil => rfl
  | cons a t ih =>
    by_cases h : a.category == "backgrounds" <;>
      simp_all [List.filter_cons, bne]

/-- C4: the flattening pass draws, in this fixed order, the background
overlays, then the base image centered horizontally at the bottom edge
of the canvas at the fixed 380 inset size, then all other overlays in
their current order with their rotation and opacity, and the output does
not depend on any stored zIndex value. -/
theorem drawComposition_fixed_order (overlays : List Overlay) (url : String)
    (g : Overlay → Int) :
    drawComposition overlays (some url)
        = ((overlays.filter fun o => o.category == "backgrounds").map overlayDraw)
          ++ [baseDraw url]
          ++ ((overlays.filter fun o => o.category != "backgrounds").map overlayDraw)
      ∧ (baseDraw url).x = 10 ∧ (baseDraw url).y = 20
      ∧ (baseDraw url).width = zazuSize ∧ (baseDraw url).height = zazuSize
      ∧ (∀ o : Overlay, (overlayDraw o).rotation = o.rotation
          ∧ (overlayDraw o).opacity = o.opacity
          ∧ rotationCenter (overlayDraw o)
              = (o.x + o.width / 2, o.y + o.height / 2))
      ∧ drawComposition (overlays.map fun o => { o with zIndex := g o }) (some url)
          = drawComposition overlays (some url) := by
  refine ⟨rfl, ?_, ?_, rfl, rfl, fun o => ⟨rfl, rfl, rfl⟩, ?_⟩
  · show (canvasWidth - zazuSize) / 2 = 10
    norm_num [canvasWidth, zazuSize]
  · show canvasHeight - zazuSize = 20
    norm_num [canvasHeight, zazuSize]
  · unfold drawComposition
    rw [filter_map_zIndex_bg, filter_map_zIndex_fg, List.map_map, List.map_map]
    have hcomp : (overlayDraw ∘ fun o : Overlay => { o with zIndex := g o })
        = overlayDraw := funext fun o => rfl
    rw [hcomp]

/-- A characters-category overlay with the stacking order the code
assigns to that category. -/
def charOverlay : Overlay where
  id := "c1"
  src := "/assets/characters/rigby.png"
  name := "Rigby"
  category := "characters"
  x := 50
  y := 50
  width := 100
  height := 100
  rotation := 0
  opacity := 1
  zIndex := 500

/-- C5: contrary to the claim (and to the comment in the source next to
the zIndex assignment), a characters-category overlay is drawn by the
flattening pass after the base image, not between the background and the
base image. -/
theorem characters_drawn_after_base :
    drawComposition [charOverlay] (some "base.png")
        = [baseDraw "base.png", overlayDraw charOverlay]
      ∧ charOverlay.category = "characters"
      ∧ charOverlay.zIndex = 500 :=
  ⟨rfl, rfl, rfl⟩

/-! ## Reachable states and the history invariant -/

/-- The history invariant of C2: the cursor is -1 exactly on the empty
sequence, and otherwise is a valid index whose entry is the current
image. -/
def HistoryInv (s : AppState) : Prop :=
  (s.historyIndex = -1 ↔ s.history = [])
  ∧ (s.history ≠ [] →
      0 ≤ s.historyIndex
      ∧ s.historyIndex < (s.history.length : Int)
      ∧ s.historyIndex.toNat < s.history.length
      ∧ currentImage s = s.history[s.historyIndex.toNat]?)

/-- States reachable from the initial state by load, append, undo,
redo, reset-to-original and clear. -/
inductive Reachable : AppState → Prop where
  | init : Reachable initialState
  | upload (s : AppState) (f : String) : Reachable s → Reachable (handleImageUpload s f)
  | loadDefault (s : AppState) (f : String) : Reachable s → Reachable (loadZazuImage s f)
  | append (s : AppState) (f : String) : Reachable s → Reachable (addImageToHistory s f)
  | undo (s : AppState) : Reachable s → Reachable (handleUndo s)
  | redo (s : AppState) : Reachable s → Reachable (handleRedo s)
  | reset (s : AppState) : Reachable s → Reachable (handleReset s)
  | clear (s : AppState) : Reachable s → Reachable (handleUploadNew s)

/-- The initial state satisfies the invariant. -/
theorem inv_initialState : HistoryInv initialState := by
  constructor
  · exact ⟨fun _ => rfl, fun _ => rfl⟩
  · intro h
    exact absurd rfl h

/-- Uploading preserves the invariant. -/
theorem inv_upload (s : AppState) (f : String) : HistoryInv (handleImageUpload s f) := by
  unfold HistoryInv handleImageUpload currentImage
  simp

/-- Loading the default character preserves the invariant. -/
theorem inv_loadZazu (s : AppState) (f : String) : HistoryInv (loadZazuImage s f) := by
  unfold HistoryInv loadZazuImage currentImage
  simp

/-- Appending preserves the invariant. -/
theorem inv_append (s : AppState) (h : HistoryInv s) (f : String) :
    HistoryInv (addImageToHistory s f) := by
  by_cases hs : s.history = []
  · have hidx : s.historyIndex = -1 := h.1.mpr hs
    unfold HistoryInv addImageToHistory jsSlice currentImage
    simp [hs, hidx]
  · obtain ⟨h0, h1, hlt, _⟩ := h.2 hs
    obtain ⟨hh, hi, _⟩ := addImageToHistory_core s f h0 h1
    have hlen2 : (addImageToHistory s f).history.length
        = s.historyIndex.toNat + 2 := by
      rw [hh]
      simp [List.length_take_of_le
        (show s.historyIndex.toNat + 1 ≤ s.history.length by omega)]
    constructor
    · constructor
      · intro he
        rw [hi] at he
        omega
      · intro he
        rw [hh] at he
        exact absurd he (by simp)
    · intro _
      refine ⟨by omega, by omega, by omega, ?_⟩
      unfold currentImage
      rw [if_pos (show (0:Int) ≤ (addImageToHistory s f).historyIndex by omega)]

/-- Undo preserves the invariant. -/
theorem inv_undo (s : AppState) (h : HistoryInv s) : HistoryInv (handleUndo s) := by
  unfold handleUndo
  by_cases hc : canUndo s = true
  · rw [if_pos hc]
    have hidx : 0 < s.historyIndex := by simpa [canUndo] using hc
    have hs : s.history ≠ [] := by
      intro he
      have := h.1.mpr he
      omega
    obtain ⟨h0, h1, hlt, _⟩ := h.2 hs
    constructor
    · constructor
      · intro he
        have he2 : s.historyIndex - 1 = -1 := he
        omega
      · intro he
        have he2 : s.history = [] := he
        exact absurd he2 hs
    · intro _
      refine ⟨?_, ?_, ?_, ?_⟩
      · show (0:Int) ≤ s.historyIndex - 1
        omega
      · show s.historyIndex - 1 < (s.history.length : Int)
        omega
      · show (s.historyIndex - 1).toNat < s.history.length
        omega
      · unfold currentImage
        rw [if_pos (show (0:Int) ≤ s.historyIndex - 1 by omega)]
  · rw [if_neg hc]
    exact h

/-- Redo preserves the invariant. -/
theorem inv_redo (s : AppState) (h : HistoryInv s) : HistoryInv (handleRedo s) := by
  unfold handleRedo
  by_cases hc : canRedo s = true
  · rw [if_pos hc]
    have hr : s.historyIndex < (s.history.length : Int) - 1 := by
      simpa [canRedo] using hc
    have hs : s.history ≠ [] := by
      intro he
      have hi := h.1.mpr he
      have hl : s.history.length = 0 := by rw [he]; rfl
      omega
    obtain ⟨h0, h1, hlt, _⟩ := h.2 hs
    constructor
    · constructor
      · intro he
        have he2 : s.historyIndex + 1 = -1 := he
        omega
      · intro he
        have he2 : s.history = [] := he
        exact absurd he2 hs
    · intro _
      refine ⟨?_, ?_, ?_, ?_⟩
      · show (0:Int) ≤ s.historyIndex + 1
        omega
      · show s.historyIndex + 1 < (s.history.length : Int)
        omega
      · show (s.historyIndex + 1).toNat < s.history.length
        omega
      · unfold currentImage
        rw [if_pos (show (0:Int) ≤ s.historyIndex + 1 by omega)]
  · rw [if_neg hc]
    exact h

/-- Reset preserves the invariant. -/
theorem inv_reset (s : AppState) (h : HistoryInv s) : HistoryInv (handleReset s) := by
  unfold handleReset
  by_cases hl : 0 < s.history.length
  · rw [if_pos hl]
    constructor
    · constructor
      · intro he
        have he2 : (0:Int) = -1 := he
        omega
      · intro he
        have he2 : s.history = [] := he
        rw [he2] at hl
        simp at hl
    · intro _
      refine ⟨le_refl 0, ?_, ?_, ?_⟩
      · show (0:Int) < (s.history.length : Int)
        omega
      · show (0:Int).toNat < s.history.length
        omega
      · simp [currentImage]
  · rw [if_neg hl]
    exact h

/-- Clearing preserves the invariant. -/
theorem inv_clear (s : AppState) : HistoryInv (handleUploadNew s) := by
  unfold HistoryInv handleUploadNew currentImage
  simp

/-- C2: in every state reachable by load, append, undo, redo, reset and
clear the cursor is -1 exactly when the sequence is empty, otherwise a
valid index with the current image equal to the indexed entry, and
canUndo and canRedo hold exactly when the cursor is above 0 and below
length - 1 respectively. -/
theorem reachable_history_invariant (s : AppState) (h : Reachable s) :
    HistoryInv s
    ∧ (canUndo s = true ↔ 0 < s.historyIndex)
    ∧ (canRedo s = true ↔ s.historyIndex < (s.history.length : Int) - 1) := by
  refine ⟨?_, by simp [canUndo], by simp [canRedo]⟩
  induction h with
  | init => exact inv_initialState
  | upload s f _ _ => exact inv_upload s f
  | loadDefault s f _ _ => exact inv_loadZazu s f
  | append s f _ ih => exact inv_append s ih f
  | undo s _ ih => exact inv_undo s ih
  | redo s _ ih => exact inv_redo s ih
  | reset s _ ih => exact inv_reset s ih
  | clear s _ _ => exact inv_clear s

/-- C2 witness: the invariant evaluated on the concrete state reached by
upload A, append B, undo. -/
theorem reachable_history_invariant_witness :
    HistoryInv (handleUndo (addImageToHistory (handleImageUpload initialState "A") "B"))
    ∧ (canUndo (handleUndo (addImageToHistory (handleImageUpload initialState "A") "B")) = true
        ↔ 0 < (handleUndo (addImageToHistory (handleImageUpload initialState "A") "B")).historyIndex)
    ∧ (canRedo (handleUndo (addImageToHistory (handleImageUpload initialState "A") "B")) = true
        ↔ (handleUndo (addImageToHistory (handleImageUpload initialState "A") "B")).historyIndex
            < ((handleUndo (addImageToHistory (handleImageUpload initialState "A") "B")).history.length : Int) - 1) :=
  reachable_history_invariant _
    (Reachable.undo _ (Reachable.append _ "B" (Reachable.upload _ "A" Reachable.init)))

/-! ## Drag and resize bounds -/

/-- C7 (amended): every resize step floors width and height at 20; every
drag step leaves the size unchanged and clamps the position to be
nonnegative, and keeps the overlay box inside the container on each axis
whenever the overlay fits in the container on that axis (when it does
not, the clamp to 0 wins and the upper bound fails). -/
theorem overlay_step_bounds (rectW rectH deltaX deltaY : Rat) (o : Overlay) :
    20 ≤ (resizeStep o deltaX deltaY).width
    ∧ 20 ≤ (resizeStep o deltaX deltaY).height
    ∧ (dragStep rectW rectH o deltaX deltaY).width = o.width
    ∧ (dragStep rectW rectH o deltaX deltaY).height = o.height
    ∧ 0 ≤ (dragStep rectW rectH o deltaX deltaY).x
    ∧ 0 ≤ (dragStep rectW rectH o deltaX deltaY).y
    ∧ (o.width ≤ rectW →
        (dragStep rectW rectH o deltaX deltaY).x ≤ rectW - o.width)
    ∧ (o.height ≤ rectH →
        (dragStep rectW rectH o deltaX deltaY).y ≤ rectH - o.height) := by
  refine ⟨?_, ?_, rfl, rfl, ?_, ?_, ?_, ?_⟩
  · show (20:Rat) ≤ max 20 (o.width + deltaX)
    exact le_max_left _ _
  · show (20:Rat) ≤ max 20 (o.height + deltaY)
    exact le_max_left _ _
  · show (0:Rat) ≤ max 0 (min (rectW - o.width) (o.x + deltaX))
    exact le_max_left _ _
  · show (0:Rat) ≤ max 0 (min (rectH - o.height) (o.y + deltaY))
    exact le_max_left _ _
  · intro hw
    show max 0 (min (rectW - o.width) (o.x + deltaX)) ≤ rectW - o.width
    exact max_le (by linarith) (min_le_left _ _)
  · intro hh
    show max 0 (min (rectH - o.height) (o.y + deltaY)) ≤ rectH - o.height
    exact max_le (by linarith) (min_le_left _ _)

/-- An overlay wider than the 400 pixel container. -/
def bigOverlay : Overlay where
  id := "big"
  src := "/assets/backgrounds/green.jpg"
  name := "Big"
  category := "backgrounds"
  x := 0
  y := 0
  width := 450
  height := 100
  rotation := 0
  opacity := 1
  zIndex := 1

/-- A component state dragging the oversized overlay. -/
def cexDragState : OverlayCompState where
  overlays := [bigOverlay]
  dragging := some "big"
  resizing := none
  dragStart := (0, 0)

/-- C7 counterexample: one drag step on an overlay of width 450 in a 400
wide container leaves x at 0, and 0 is not at most 400 - 450, so the
claimed bound x at most containerWidth - overlayWidth fails. -/
theorem drag_clamp_counterexample :
    ((handleMouseMove 400 400 10 0 cexDragState).overlays.map
        fun o => (o.x, o.width)) = [(0, 450)]
    ∧ ¬ ((0 : Rat) ≤ 400 - 450) := by
  refine ⟨?_, by norm_num⟩
  show [((max (0:Rat) (min ((400:Rat) - 450) ((0:Rat) + ((10:Rat) - 0)))), (450:Rat))]
      = [((0:Rat), (450:Rat))]
  norm_num [min_def, max_def]

/-! ## Remote failure leaves the state unchanged -/

/-- C9: when a remote edit, filter or adjustment call fails, the history
sequence, cursor, overlay set, prompt and hotspots are exactly what they
were before; only the error message and the busy flag change. -/
theorem remote_failure_leaves_state (s : AppState)
    (filterPrompt adjustmentPrompt msg : String)
    (hc : currentImage s ≠ none)
    (hp : jsTrim s.prompt ≠ "")
    (hh : s.editHotspot ≠ none) :
    handleGenerate s (Except.error msg)
        = { s with error := some ("Failed to generate the image. " ++ msg)
                   isLoading := false }
    ∧ handleApplyFilter s filterPrompt (Except.error msg)
        = { s with error := some ("Failed to apply the filter. " ++ msg)
                   isLoading := false }
    ∧ handleApplyAdjustment s adjustmentPrompt (Except.error msg)
        = { s with error := some ("Failed to apply the adjustment. " ++ msg)
                   isLoading := false } := by
  refine ⟨?_, ?_, ?_⟩
  · unfold handleGenerate
    rw [if_neg hc, if_neg hp, if_neg hh]
    rfl
  · unfold handleApplyFilter
    rw [if_neg hc]
    rfl
  · unfold handleApplyAdjustment
    rw [if_neg hc]
    rfl

/-- A valid state for the C9 witness: one image loaded, a prompt typed,
a hotspot selected. -/
def sOK : AppState :=
  { initialState with history := ["A"], historyIndex := 0, prompt := "p",
                      editHotspot := some (1, 2) }

/-- C9 witness: the unchanged-state equations evaluated on a concrete
valid state and a concrete failing remote call. -/
theorem remote_failure_leaves_state_witness :
    handleGenerate sOK (Except.error "boom")
        = { sOK with error := some ("Failed to generate the image. " ++ "boom")
                     isLoading := false }
    ∧ handleApplyFilter sOK "fp" (Except.error "boom")
        = { sOK with error := some ("Failed to apply the filter. " ++ "boom")
                     isLoading := false }
    ∧ handleApplyAdjustment sOK "ap" (Except.error "boom")
        = { sOK with error := some ("Failed to apply the adjustment. " ++ "boom")
                     isLoading := false } :=
  remote_failure_leaves_state sOK "fp" "ap" "boom" (by decide) (by decide) (by decide)
